import Mathlib

/-
Verification of the query-generation and data-transformation core of the
vuex-graphql repository against its specification.

The embedding follows the TypeScript sources:
  src/src/queryBuilder.ts        class QueryBuilder (buildArguments,
                                 transformOutgoingData, transformIncomingData,
                                 buildRelationsQuery, buildField, buildQuery)
  src/unnamed/part_002           class Model (getQueryFields, getRelations)
                                 and the earlier plugin generation
  src/unnamed/part_001           class VuexORMApollo (mutate, updateData)

JavaScript values are modelled by the inductive type JSValue below; machine
details that the sources never rely on (float ids, string escaping) are
noted where they are simplified.
-/

namespace VuexOrmGraphql

/-- JSValue models the JavaScript values that flow through the plugin:
null, NaN, booleans, numbers (the sources only ever use integer ids and
counters, so Int suffices), strings, arrays and plain objects with ordered
keys. The JS value undefined is modelled by null: the two are
distinguished by the sources only through truthiness, where both are falsy. -/
inductive JSValue where
  | null
  | nan
  | bool (b : Bool)
  | num (n : Int)
  | str (s : String)
  | arr (elems : List JSValue)
  | obj (fields : List (String × JSValue))

mutual

/-- Structural size of a JSValue, used as a recursion budget for the
transform functions (every recursive call of the sources descends into a
strict subvalue, so the size is always a sufficient budget). -/
def jsSize : JSValue → Nat
  | .null => 1
  | .nan => 1
  | .bool _ => 1
  | .num _ => 1
  | .str _ => 1
  | .arr l => 1 + jsSizeList l
  | .obj l => 1 + jsSizeFields l

def jsSizeList : List JSValue → Nat
  | [] => 0
  | v :: rest => jsSize v + jsSizeList rest

def jsSizeFields : List (String × JSValue) → Nat
  | [] => 0
  | (_, v) :: rest => jsSize v + jsSizeFields rest

end

/-- JavaScript truthiness of a value. -/
def truthy : JSValue → Bool
  | .null => false
  | .nan => false
  | .bool b => b
  | .num n => n != 0
  | .str s => s != ("")
  | .arr _ => true
  | .obj _ => true

/-- Reads a property of a JS object; a missing key yields null, modelling
undefined (both are falsy, which is the only way the sources look at the
result of a missed lookup). -/
def objGet (fields : List (String × JSValue)) (k : String) : JSValue :=
  match fields.find? (fun p => p.1 == k) with
  | some p => p.2
  | none => .null

/-- Property assignment on a JS object: an existing key is overwritten in
place, a new key is appended (JS objects keep insertion order). -/
def objSet (fields : List (String × JSValue)) (k : String) (v : JSValue) :
    List (String × JSValue) :=
  if fields.any (fun p => p.1 == k) then
    fields.map (fun p => if p.1 == k then (k, v) else p)
  else
    fields ++ [(k, v)]

/-- Reads a property of an arbitrary value; primitives have no own
properties, so anything but an object yields the undefined model. -/
def objGetV (v : JSValue) (k : String) : JSValue :=
  match v with
  | .obj fields => objGet fields k
  | _ => .null

/-- Own fields of a value, empty for primitives. -/
def objFieldsOf (v : JSValue) : List (String × JSValue) :=
  match v with
  | .obj fields => fields
  | _ => []

/-- Boolean test for the endsWith method of JS strings, written over the
character list so that it evaluates inside the kernel. -/
def strEndsWith (s t : String) : Bool := t.data.isSuffixOf s.data

/-- Boolean test for the startsWith method of JS strings. -/
def strStartsWith (s t : String) : Bool := t.data.isPrefixOf s.data

/-- Boolean substring test (JS String includes), used only to observe
generated query texts in the theorems below. -/
def strContains (s pat : String) : Bool :=
  s.data.tails.any (fun t => pat.data.isPrefixOf t)

/-- Modelled from the spec: the external inflection library (not part of
this repository) pluralizes English nouns. The simple suffix rule below is
exact for every entity and relation name appearing in the sources and
tests (user/users, post/posts, comment/comments). -/
def pluralize (s : String) : String :=
  if strEndsWith s ("s") then s else s ++ ("s")

/-- Modelled from the spec: singularization of the external inflection
library, by the same suffix rule. -/
def singularize (s : String) : String :=
  if strEndsWith s ("s") then String.mk (s.data.dropLast) else s

/-- Models parseInt(v, 0) of JS as used on id fields: a radix argument of 0
means decimal, a number parses to itself (ids are integers), a string
parses its longest leading digit run, anything else gives NaN. -/
def parseIntJS : JSValue → JSValue
  | .num n => .num n
  | .str s =>
    let t := if strStartsWith s ("-") then String.mk (s.data.drop 1) else s
    let digits := String.mk (t.data.takeWhile Char.isDigit)
    if digits == ("") then .nan
    else
      let m : Nat := digits.data.foldl (fun acc c => 10 * acc + (c.toNat - 48)) 0
      .num (if strStartsWith s ("-") then -(m : Int) else (m : Int))
  | _ => .nan

/-- Models the implicit String(v) coercion of JS template interpolation for
the values that can reach it in buildArguments: scalars print their usual
JS form, a plain object prints the object tag. Arrays cannot reach this
coercion there because array-valued arguments are skipped first, so the
array branch is left at the empty string. -/
def jsToString : JSValue → String
  | .null => ("null")
  | .nan => ("NaN")
  | .bool b => if b then ("true") else ("false")
  | .num n => toString n
  | .str s => s
  | .obj _ => ("[object Object]")
  | .arr _ => ("")

/-- Recursion worker for jsonStringify, with a structural budget. -/
def jsonGo : Nat → JSValue → String
  | 0, _ => ("")
  | Nat.succ n, v =>
    match v with
    | .null => ("null")
    | .nan => ("null")
    | .bool b => if b then ("true") else ("false")
    | .num k => toString k
    | .str s => ("\"") ++ s ++ ("\"")
    | .arr l => ("[") ++ String.intercalate (",") (l.map (fun e => jsonGo n e)) ++ ("]")
    | .obj kvs =>
      ("\x7b") ++
        String.intercalate (",")
          (kvs.map (fun p => ("\"") ++ p.1 ++ ("\":") ++ jsonGo n p.2)) ++
      ("\x7d")

/-- Models JSON.stringify as used for object-typed argument values; string
escaping is not modelled because no such value in the sources contains
characters that need it. -/
def jsonStringify (v : JSValue) : String := jsonGo (jsSize v) v

/-- Argument maps. Modelled from the spec because src/interfaces.ts is not
among the sources: an Arguments value is a JS plain object from argument
name to value (an indexable object, as buildArguments accesses it with
Object.keys and bracket indexing, and as every caller builds it with an
object literal), kept here as an ordered association list. -/
abbrev ArgMap := List (String × JSValue)

/-- Detects the object-with-type-tag case of buildArguments: the JS test is
typeof value === (object) and value.__type being truthy, and the tag is
then string-coerced by template concatenation. A null value would make the
JS crash on the property access; null never reaches buildArguments in the
sources and the model treats it as carrying no tag. -/
def typeTagOf : JSValue → Option String
  | .obj fields =>
    if truthy (objGet fields ("__type")) then some (jsToString (objGet fields ("__type")))
    else none
  | _ => none

/-- True exactly for array values. -/
def isArrVal : JSValue → Bool
  | .arr _ => true
  | _ => false

/-- True exactly for number values (including NaN, whose JS typeof is
number). -/
def isNumVal : JSValue → Bool
  | .num _ => true
  | .nan => true
  | _ => false

/-- One iteration of the forEach loop of buildArguments, threading the
accumulated text and the first flag: entries whose value is an array and
entries keyed id are skipped, otherwise the rendered entry is appended,
after a comma separator unless it is the first. The loop body is a named
function here so that the theorems below can speak about the fold. -/
def buildArgEntry (signature valuesAsVariables : Bool) (st : String × Bool)
    (kv : String × JSValue) : String × Bool :=
  let key := kv.1
  let value := kv.2
  if isArrVal value || key == ("id") then st
  else
    let typeOrValue :=
      if signature then
        match typeTagOf value with
        | some t => t ++ ("Input!")
        | none => if isNumVal value then ("Number!") else ("String!")
      else if valuesAsVariables then ("$") ++ key
      else
        match typeTagOf value with
        | some _ => jsonStringify value
        | none =>
          if isNumVal value then jsToString value
          else ("\"") ++ jsToString value ++ ("\"")
    (st.1 ++ (if st.2 then ("") else (", ")) ++
      (if signature then ("$") else ("")) ++ key ++ (": ") ++ typeOrValue,
     false)

/-- buildArguments of src/src/queryBuilder.ts lines 61 to 105: renders an
argument clause from an argument map. With the signature flag each kept
entry becomes a variable declaration, with the valuesAsVariables flag a
variable reference, otherwise a literal value. The clause is parenthesized
only when at least one entry was emitted. -/
def buildArguments (args : Option ArgMap) (signature : Bool)
    (valuesAsVariables : Bool) : String :=
  match args with
  | none => ("")
  | some l =>
    let st := l.foldl (buildArgEntry signature valuesAsVariables) ((""), true)
    if !st.2 then ("(") ++ st.1 ++ (")") else st.1

/-- Field kinds of the Model class of src/unnamed/part_002: the sources
branch on the constructor name of a field, distinguishing Attr, BelongsTo
and every other (to-many) relation kind. -/
inductive FieldDef where
  | attr
  | belongsTo
  | hasMany
deriving DecidableEq

/-- The Model wrapper of src/unnamed/part_002 lines 40 to 93: singular and
plural names derived by inflection from the entity name, plus the ordered
field map. -/
structure Model where
  singularName : String
  pluralName : String
  fields : List (String × FieldDef)

/-- The Model constructor of src/unnamed/part_002 lines 46 to 58. -/
def mkModel (entity : String) (fields : List (String × FieldDef)) : Model :=
  { singularName := singularize entity
    pluralName := pluralize entity
    fields := fields }

/-- getQueryFields of src/unnamed/part_002 lines 64 to 76: the names of the
fields whose constructor is Attr and whose name does not end in Id, in
declaration order. -/
def getQueryFields (m : Model) : List String :=
  m.fields.foldl (fun acc p =>
    if p.2 == FieldDef.attr && !(strEndsWith p.1 ("Id")) then acc ++ [p.1]
    else acc) []

/-- getRelations of src/unnamed/part_002 lines 82 to 92: every field whose
constructor is not Attr, in declaration order. -/
def getRelations (m : Model) : List (String × FieldDef) :=
  m.fields.foldl (fun acc p => if p.2 != FieldDef.attr then acc ++ [p] else acc) []

/-- Failure modes of the embedded query builder: exhaustion of the explicit
recursion budget (the JS original would recurse without bound there), the
no-such-model exception of getModel, and a JS TypeError. -/
inductive BErr where
  | outOfFuel
  | noSuchModel (name : String)
  | typeError (msg : String)
deriving DecidableEq

/-- getModel of src/unnamed/part_001 lines 134 to 141: the registry maps
singularized names to models and an unknown name throws. -/
def getModelE (reg : List Model) (name : String) : Except BErr Model :=
  match reg.find? (fun m => m.singularName == singularize name) with
  | some m => .ok m
  | none => .error (.noSuchModel name)

/-- The relation filter inside buildRelationsQuery of
src/src/queryBuilder.ts line 185: with no root model every relation is
kept, otherwise a relation whose name equals the singular or the plural
name of the root is dropped. -/
def keptRelations (m : Model) (rootModel : Option Model) :
    List (String × FieldDef) :=
  (getRelations m).filter (fun p =>
    match rootModel with
    | none => true
    | some r => p.1 != r.singularName && p.1 != r.pluralName)

/-- The multiplicity decision of src/src/queryBuilder.ts line 186: every
relation kind except BelongsTo is queried as a connection. -/
def relMultiple (fd : FieldDef) : Bool := fd != FieldDef.belongsTo

/-- Sequential traversal with exception propagation, modelling the forEach
push loop of buildRelationsQuery in which a thrown exception aborts the
whole traversal. -/
def mapExcept (f : α → Except BErr β) : List α → Except BErr (List β)
  | [] => .ok []
  | a :: rest => do
    let b ← f a
    let bs ← mapExcept f rest
    pure (b :: bs)

/-- buildField of src/src/queryBuilder.ts lines 204 to 229 together with
the inlined body of buildRelationsQuery (lines 181 to 192), with an
explicit recursion budget as the first argument: the JS original recurses
mutually through buildRelationsQuery with no depth bound, so a budget of
zero marks the recursion that the original would perform without
terminating. The selection text concatenates the queryable scalar fields
joined by spaces and the relation blocks joined by commas (a JS array
interpolated into a template string joins with commas), and wraps the body
in a nodes block when multiple is set. -/
def buildFieldN (reg : List Model) : Nat → String → Bool → Option ArgMap →
    Bool → Option Model → Option String → Except BErr String
  | 0, _, _, _, _, _, _ => .error .outOfFuel
  | Nat.succ fuel, modelName, multiple, args, withVars, rootModel, nameArg => do
    let model ← getModelE reg modelName
    let params := buildArguments args false withVars
    let rq ← mapExcept
      (fun p => buildFieldN reg fuel p.1 (relMultiple p.2) none false
        (some (rootModel.getD model)) none)
      (keptRelations model rootModel)
    let fields := ("\n      ") ++ String.intercalate (" ") (getQueryFields model)
      ++ ("\n      ") ++ String.intercalate (",") rq ++ ("\n    ")
    if multiple then
      pure (("\n        ") ++ (nameArg.getD model.pluralName) ++ params
        ++ (" \x7b\n          nodes \x7b\n            ") ++ fields
        ++ ("\n          \x7d\n        \x7d\n      "))
    else
      pure (("\n        ") ++ (nameArg.getD model.singularName) ++ params
        ++ (" \x7b\n          ") ++ fields ++ ("\n        \x7d\n      "))

/-- buildRelationsQuery of src/src/queryBuilder.ts lines 181 to 192: one
buildField fragment per kept relation of the model, the relation name
standing in for the related model, non multiple exactly for BelongsTo,
and the root model (defaulting to the current model) passed down. -/
def buildRelationsQueryN (reg : List Model) (fuel : Nat) (model : Model)
    (rootModel : Option Model) : Except BErr (List String) :=
  mapExcept
    (fun p => buildFieldN reg fuel p.1 (relMultiple p.2) none false
      (some (rootModel.getD model)) none)
    (keptRelations model rootModel)

/-- buildQuery of src/src/queryBuilder.ts lines 238 to 242. The original
computes multiple as the negation of args and args.get applied to id; the
Arguments value reaching it is a plain object (see ArgMap above), and a
plain object has no get method, so the JS evaluation of args.get throws a
TypeError whenever args is present. With no args the field is built as a
connection and wrapped in an outer query block (the final gql parse of the
wrapped text is not modelled; the result here is the query text). -/
def buildQueryQB (reg : List Model) (fuel : Nat) (modelName : String)
    (args : Option ArgMap) : Except BErr String :=
  match args with
  | some _ => .error (.typeError ("args.get is not a function"))
  | none => do
    let q ← buildFieldN reg fuel modelName true none false none none
    pure (("\x7b ") ++ q ++ (" \x7d"))

/-- Recursion worker for transformIncomingData, with a structural budget
(the original recurses into strict subvalues only, so the size of the
input is a sufficient budget; the recursiveCall flag of the original only
toggles logging and is dropped). For an object, each truthy member is
walked in key order: an object member with a truthy nodes property recurses
into that property under the pluralized key, any other object or array
member recurses under the singularized key, an id member is integer
coerced, and other scalars are copied. Falsy members are dropped. A
primitive input has no own keys and yields an empty object. -/
def transformGo : Nat → JSValue → JSValue
  | 0, _ => .null
  | Nat.succ n, .arr l => .arr (l.map (fun d => transformGo n d))
  | Nat.succ n, .obj fields =>
    .obj (fields.foldl (fun acc kv =>
      let k := kv.1
      let v := kv.2
      if truthy v then
        match v with
        | .obj inner =>
          if truthy (objGet inner ("nodes")) then
            objSet acc (pluralize k) (transformGo n (objGet inner ("nodes")))
          else
            objSet acc (singularize k) (transformGo n v)
        | .arr _ => objSet acc (singularize k) (transformGo n v)
        | _ =>
          if k == ("id") then objSet acc k (parseIntJS v)
          else objSet acc k v
      else acc) [])
  | Nat.succ _, _ => .obj []

/-- transformIncomingData of src/src/queryBuilder.ts lines 139 to 173. -/
def transformIncomingData (d : JSValue) : JSValue :=
  transformGo (jsSize d) d

/-- True when the model declares a relation under the given key, the
relations.has test of transformOutgoingData. -/
def relHas (m : Model) (k : String) : Bool :=
  (getRelations m).any (fun q => q.1 == k)

/-- transformOutgoingData of src/src/queryBuilder.ts lines 115 to 130:
copies every field of the record except relations of the owning model and
the id field. The original resolves the owning model from the record via
getModel; here the model is passed alongside the record fields. -/
def transformOutgoingData (m : Model) (data : List (String × JSValue)) :
    List (String × JSValue) :=
  data.foldl (fun acc p =>
    if !(relHas m p.1) && p.1 != ("id") then objSet acc p.1 p.2 else acc) []

/-- A store mutation issued through dispatch: an update of the record found
under the given id with the given payload. -/
inductive DispatchCall where
  | update (whereId : JSValue) (payload : JSValue)

/-- The id an update call is keyed by. -/
def DispatchCall.whereId : DispatchCall → JSValue
  | .update i _ => i

/-- Modelled from the spec: buildMutation is called by the plugin of
src/unnamed/part_001 but its definition is not among the sources. Per the
spec it assembles an operation named by the capitalized action and entity,
a signature over the entity input object (plus id for update and delete),
a call site with variable references, and a scalar result selection. Its
output is never inspected by the claims below. -/
def buildMutation (m : Model) (id : JSValue) (action : String) : String :=
  let cap := fun (s : String) =>
    match s.data with
    | [] => s
    | c :: rest => String.mk (c.toUpper :: rest)
  let sigArgs : ArgMap := [(m.singularName, .obj [(("__type"), .str (cap m.singularName))])]
  let idSig := if truthy id then ("$id: ID!, ") else ("")
  let idUse := if truthy id then ("id: $id, ") else ("")
  ("mutation ") ++ cap action ++ cap m.singularName
    ++ ("(") ++ idSig ++ (String.mk ((buildArguments (some sigArgs) true false).data.drop 1)).dropRight 1 ++ (") \x7b ")
    ++ action ++ cap m.singularName
    ++ ("(") ++ idUse ++ (String.mk ((buildArguments (some sigArgs) false true).data.drop 1)).dropRight 1 ++ (") \x7b ")
    ++ String.intercalate (" ") (getQueryFields m)
    ++ (" \x7d \x7d")

/-- updateData of src/unnamed/part_001 lines 297 to 306: takes the value of
the first key of the data object, takes its first element if it is an
array, and dispatches a single update keyed by the given id. -/
def updateData (data : JSValue) (id : JSValue) : DispatchCall :=
  let d :=
    match data with
    | .obj kvs =>
      match kvs with
      | [] => JSValue.null
      | kv :: _ => kv.2
    | _ => JSValue.null
  let d :=
    match d with
    | .arr l =>
      match l with
      | [] => JSValue.null
      | x :: _ => x
    | x => x
  .update id d

/-- mutate of src/unnamed/part_001 lines 242 to 263, shallowly embedded:
the outcome of the apollo mutate call is passed in as a parameter (the
transport is an external collaborator) and the list of store dispatches
issued is returned alongside the result. With no data nothing happens.
Otherwise the mutation document and variables are computed; a transport
failure is returned unchanged with no dispatch, and a transport success is
transformed and handed to updateData keyed by the pre-mutation record id. -/
def mutate (action : String) (data : Option JSValue) (m : Model)
    (transportResult : Except String JSValue) :
    List DispatchCall × Except String (Option DispatchCall) :=
  match data with
  | none => ([], .ok none)
  | some d =>
    let idVal := if action == ("create") then JSValue.null else objGetV d ("id")
    let _query := buildMutation m idVal action
    let baseVars : ArgMap :=
      [(m.singularName, .obj (transformOutgoingData m (objFieldsOf d)))]
    let _variables := if truthy idVal then baseVars ++ [(("id"), idVal)] else baseVars
    match transportResult with
    | .error e => ([], .error e)
    | .ok respData =>
      let newData := transformIncomingData respData
      let call := updateData newData (objGetV d ("id"))
      ([call], .ok (some call))

/-- Model graph with a two-step relation chain: users has many posts, posts
belongs to user and has many comments, comments belongs to user. All id
fields are plain attributes. Relation names resolve to the entity names by
the inflection rules, as in the test schemas of the repository. -/
def chainUser : Model := mkModel ("users")
  [(("id"), .attr), (("name"), .attr), (("posts"), .hasMany)]

def chainPost : Model := mkModel ("posts")
  [(("id"), .attr), (("title"), .attr), (("user"), .belongsTo),
   (("comments"), .hasMany)]

def chainComment : Model := mkModel ("comments")
  [(("id"), .attr), (("content"), .attr), (("user"), .belongsTo)]

def chainReg : List Model := [chainUser, chainPost, chainComment]

/-- Model graph shaped like the User, Post and Comment models of the test
suite (scalar attribute ids): posts and comments form a relation cycle
that does not pass through the users model name. -/
def cycUser : Model := mkModel ("users")
  [(("id"), .attr), (("name"), .attr), (("posts"), .hasMany),
   (("comments"), .hasMany)]

def cycPost : Model := mkModel ("posts")
  [(("id"), .attr), (("content"), .attr), (("title"), .attr),
   (("userId"), .attr), (("user"), .belongsTo), (("comments"), .hasMany)]

def cycComment : Model := mkModel ("comments")
  [(("id"), .attr), (("content"), .attr), (("userId"), .attr),
   (("postId"), .attr), (("user"), .belongsTo), (("post"), .belongsTo)]

def cyclicReg : List Model := [cycUser, cycPost, cycComment]

/- ------------------------------------------------------------------ -/
/- Helper lemmas                                                      -/
/- ------------------------------------------------------------------ -/

@[simp] lemma exc_bind_ok (a : α) (f : α → Except BErr β) :
    (Except.ok a : Except BErr α) >>= f = f a := rfl

@[simp] lemma exc_bind_err (e : BErr) (f : α → Except BErr β) :
    (Except.error e : Except BErr α) >>= f = .error e := rfl

lemma foldl_push_eq (p : α → Bool) (g : α → β) :
    ∀ (l : List α) (acc : List β),
      l.foldl (fun acc a => if p a then acc ++ [g a] else acc) acc
        = acc ++ (l.filter p).map g := by
  intro l
  induction l with
  | nil => intro acc; simp
  | cons a rest ih =>
    intro acc
    by_cases h : p a <;>
      simp [List.foldl_cons, h, ih, List.filter_cons, List.append_assoc]

lemma getQueryFields_eq (m : Model) :
    getQueryFields m
      = (m.fields.filter
          (fun p => p.2 == FieldDef.attr && !(strEndsWith p.1 ("Id")))).map Prod.fst := by
  unfold getQueryFields
  rw [foldl_push_eq]
  simp

lemma getRelations_aux :
    ∀ (l : List (String × FieldDef)) (acc : List (String × FieldDef)),
      l.foldl (fun acc p => if p.2 != FieldDef.attr then acc ++ [p] else acc) acc
        = acc ++ l.filter (fun p => p.2 != FieldDef.attr) := by
  intro l
  induction l with
  | nil => intro acc; simp
  | cons a rest ih =>
    intro acc
    rw [List.foldl_cons, List.filter_cons]
    by_cases h : (a.2 != FieldDef.attr) = true
    · rw [if_pos h, if_pos h, ih]
      simp [List.append_assoc]
    · rw [if_neg h, if_neg h, ih]

lemma getRelations_eq (m : Model) :
    getRelations m = m.fields.filter (fun p => p.2 != FieldDef.attr) := by
  unfold getRelations
  rw [getRelations_aux]
  rfl

lemma filter_const_true : ∀ (l : List α), l.filter (fun _ => true) = l := by
  intro l
  induction l with
  | nil => rfl
  | cons a rest ih => simp [List.filter_cons, ih]

lemma all_of_filter (p : α → Bool) : ∀ (l : List α), (l.filter p).all p = true := by
  intro l
  induction l with
  | nil => rfl
  | cons a rest ih => by_cases h : p a <;> simp [List.filter_cons, h, ih]

lemma keptRelations_none (m : Model) : keptRelations m none = getRelations m := by
  have h : keptRelations m none = (getRelations m).filter (fun _ => true) := rfl
  rw [h, filter_const_true]

lemma mapExcept_length (f : α → Except BErr β) :
    ∀ l : List α,
      Except.map List.length (mapExcept f l)
        = Except.map (fun _ => l.length) (mapExcept f l) := by
  intro l
  induction l with
  | nil => rfl
  | cons a rest ih =>
    cases hfa : f a with
    | error e => simp [mapExcept, hfa, Except.map]
    | ok b =>
      cases hrest : mapExcept f rest with
      | error e => simp [mapExcept, hfa, hrest, Except.map]
      | ok bs =>
        have hlen : bs.length = rest.length := by
          rw [hrest] at ih
          simpa [Except.map] using ih
        simp [mapExcept, hfa, hrest, Except.map, hlen]

lemma objSet_append (acc : List (String × JSValue)) (k : String) (v : JSValue)
    (h : ∀ q ∈ acc, q.1 ≠ k) : objSet acc k v = acc ++ [(k, v)] := by
  unfold objSet
  have hany : acc.any (fun p => p.1 == k) = false := by
    rw [List.any_eq_false]
    intro q hq
    simpa using h q hq
  rw [hany]
  simp

/- ------------------------------------------------------------------ -/
/- Divergence of the relation recursion on the cyclic test graph      -/
/- ------------------------------------------------------------------ -/

lemma cyc_comments_step (n : Nat)
    (h : buildFieldN cyclicReg n ("post") false none false (some cycUser) none
      = .error .outOfFuel) :
    buildFieldN cyclicReg (n + 1) ("comments") true none false (some cycUser) none
      = .error .outOfFuel := by
  simp only [buildFieldN,
    show getModelE cyclicReg ("comments") = Except.ok cycComment from rfl,
    exc_bind_ok, exc_bind_err,
    show keptRelations cycComment (some cycUser) = [(("post"), FieldDef.belongsTo)] from rfl,
    mapExcept,
    show (some cycUser).getD cycComment = cycUser from rfl,
    show relMultiple FieldDef.belongsTo = false from rfl,
    h]

lemma cyc_post_step (n : Nat)
    (h : buildFieldN cyclicReg n ("comments") true none false (some cycUser) none
      = .error .outOfFuel) :
    buildFieldN cyclicReg (n + 1) ("post") false none false (some cycUser) none
      = .error .outOfFuel := by
  simp only [buildFieldN,
    show getModelE cyclicReg ("post") = Except.ok cycPost from rfl,
    exc_bind_ok, exc_bind_err,
    show keptRelations cycPost (some cycUser) = [(("comments"), FieldDef.hasMany)] from rfl,
    mapExcept,
    show (some cycUser).getD cycPost = cycUser from rfl,
    show relMultiple FieldDef.hasMany = true from rfl,
    h]

lemma cyc_pair_err : ∀ n,
    buildFieldN cyclicReg n ("comments") true none false (some cycUser) none
      = .error .outOfFuel
    ∧ buildFieldN cyclicReg n ("post") false none false (some cycUser) none
      = .error .outOfFuel := by
  intro n
  induction n with
  | zero => exact ⟨rfl, rfl⟩
  | succ n ih => exact ⟨cyc_comments_step n ih.2, cyc_post_step n ih.1⟩

lemma cyc_posts_err : ∀ n,
    buildFieldN cyclicReg n ("posts") true none false (some cycUser) none
      = .error .outOfFuel := by
  intro n
  cases n with
  | zero => rfl
  | succ n =>
    simp only [buildFieldN,
      show getModelE cyclicReg ("posts") = Except.ok cycPost from rfl,
      exc_bind_ok, exc_bind_err,
      show keptRelations cycPost (some cycUser) = [(("comments"), FieldDef.hasMany)] from rfl,
      mapExcept,
      show (some cycUser).getD cycPost = cycUser from rfl,
      show relMultiple FieldDef.hasMany = true from rfl,
      (cyc_pair_err n).1]

lemma cyc_users_diverges : ∀ fuel,
    buildFieldN cyclicReg fuel ("users") true none false none none
      = .error .outOfFuel := by
  intro fuel
  cases fuel with
  | zero => rfl
  | succ n =>
    simp only [buildFieldN,
      show getModelE cyclicReg ("users") = Except.ok cycUser from rfl,
      exc_bind_ok, exc_bind_err,
      show keptRelations cycUser none
        = [(("posts"), FieldDef.hasMany), (("comments"), FieldDef.hasMany)] from rfl,
      mapExcept,
      show (none : Option Model).getD cycUser = cycUser from rfl,
      show relMultiple FieldDef.hasMany = true from rfl,
      cyc_posts_err n]

/- ------------------------------------------------------------------ -/
/- Skip behaviour of buildArguments                                   -/
/- ------------------------------------------------------------------ -/

lemma buildArgEntry_skip (sig var : Bool) (st : String × Bool)
    (kv : String × JSValue)
    (h : (isArrVal kv.2 || kv.1 == ("id")) = true) :
    buildArgEntry sig var st kv = st := by
  unfold buildArgEntry
  rw [if_pos h]

lemma buildArgs_fold_filter (sig var : Bool) :
    ∀ (l : ArgMap) (st : String × Bool),
      l.foldl (buildArgEntry sig var) st
        = (l.filter (fun p => !(isArrVal p.2) && p.1 != ("id"))).foldl
            (buildArgEntry sig var) st := by
  intro l
  induction l with
  | nil => intro st; rfl
  | cons kv rest ih =>
    intro st
    rw [List.foldl_cons, List.filter_cons]
    by_cases h : (!(isArrVal kv.2) && kv.1 != ("id")) = true
    · rw [if_pos h, List.foldl_cons]
      exact ih _
    · have hskip : (isArrVal kv.2 || kv.1 == ("id")) = true := by
        cases harr : isArrVal kv.2 <;> cases hid : kv.1 == ("id") <;>
          simp [harr, hid, bne] at h ⊢
      rw [if_neg h, buildArgEntry_skip sig var st kv hskip]
      exact ih st

/- ------------------------------------------------------------------ -/
/- Outgoing transform as a filter                                     -/
/- ------------------------------------------------------------------ -/

lemma transformOutgoing_aux (m : Model) :
    ∀ (data acc : List (String × JSValue)),
      (∀ p ∈ data, ∀ q ∈ acc, p.1 ≠ q.1) →
      (data.map Prod.fst).Nodup →
      data.foldl
          (fun acc p =>
            if !(relHas m p.1) && p.1 != ("id") then objSet acc p.1 p.2 else acc) acc
        = acc ++ data.filter (fun p => !(relHas m p.1) && p.1 != ("id")) := by
  intro data
  induction data with
  | nil => intro acc _ _; simp
  | cons p rest ih =>
    intro acc hdisj hnodup
    have hnodup_rest : (rest.map Prod.fst).Nodup := by
      simpa using hnodup.of_cons
    have hhead : ∀ q ∈ rest, q.1 ≠ p.1 := by
      intro q hq
      have := hnodup
      rw [List.map_cons, List.nodup_cons] at this
      intro hEq
      exact this.1 (hEq ▸ List.mem_map_of_mem Prod.fst hq)
    rw [List.foldl_cons]
    by_cases hc : (!(relHas m p.1) && p.1 != ("id")) = true
    · rw [if_pos hc]
      have hset : objSet acc p.1 p.2 = acc ++ [(p.1, p.2)] := by
        apply objSet_append
        intro q hq
        exact fun hEq => hdisj p (List.mem_cons_self p rest) q hq hEq.symm
      rw [hset]
      rw [ih (acc ++ [(p.1, p.2)]) ?_ hnodup_rest]
      · simp [List.filter_cons, hc, List.append_assoc]
      · intro p2 hp2 q hq
        rcases List.mem_append.mp hq with hq1 | hq2
        · exact hdisj p2 (List.mem_cons_of_mem p hp2) q hq1
        · have : q = (p.1, p.2) := by simpa using hq2
          subst this
          exact hhead p2 hp2
    · rw [if_neg hc]
      rw [ih acc (fun p2 hp2 q hq => hdisj p2 (List.mem_cons_of_mem p hp2) q hq) hnodup_rest]
      simp [List.filter_cons, hc]

/- ------------------------------------------------------------------ -/
/- Claim theorems                                                     -/
/- ------------------------------------------------------------------ -/

set_option maxRecDepth 100000 in
/-- C1 counterexample. The claim states that the selection set produced by
buildQuery and buildField goes exactly one relation level deep from the
root. On the chain graph (users has many posts, posts has many comments,
comments only points back to user) the generated root selection for users
already contains the comments block, a relation of the second-level posts
model, and the relation list built for the posts model under the users
root is not empty: expansion continues below the first level. -/
theorem c1_counterexample :
    Except.map (fun s => strContains s ("comments"))
        (buildFieldN chainReg 10 ("users") true none false none none)
      = Except.ok true
    ∧ buildRelationsQueryN chainReg 10 chainPost (some chainUser) ≠ Except.ok [] := by
  constructor
  · rfl
  · intro h
    have h1 : Except.map List.length
        (buildRelationsQueryN chainReg 10 chainPost (some chainUser))
        = Except.ok 1 := rfl
    rw [h] at h1
    simp [Except.map] at h1

/-- C1 as amended: for every registry and root model, buildRelationsQuery at
the root (no root guard yet) yields one nested block per relation of the
root whenever it yields at all; a relation whose name equals the singular
or plural name of the root model is never kept at any level; but expansion
continues recursively below the first level, guarded only by the root
name, as the kept relation list of the posts model under the users root
shows, and on the cyclic users, posts, comments graph of the test schema
the generation exhausts every recursion budget, so the JS original does
not terminate there. -/
theorem c1_amended :
    (∀ (reg : List Model) (fuel : Nat) (m : Model),
      Except.map List.length (buildRelationsQueryN reg fuel m none)
        = Except.map (fun _ => (getRelations m).length)
            (buildRelationsQueryN reg fuel m none))
    ∧ (∀ (m r : Model),
        (keptRelations m (some r)).all
          (fun q => q.1 != r.singularName && q.1 != r.pluralName) = true)
    ∧ (Except.map List.length
          (buildRelationsQueryN chainReg 10 chainPost (some chainUser))
        = Except.ok 1
      ∧ (getRelations chainPost).length = 2)
    ∧ (∀ fuel : Nat,
        buildFieldN cyclicReg fuel ("users") true none false none none
          = .error .outOfFuel) := by
  refine ⟨?_, ?_, ⟨rfl, rfl⟩, cyc_users_diverges⟩
  · intro reg fuel m
    unfold buildRelationsQueryN
    rw [keptRelations_none]
    exact mapExcept_length _ (getRelations m)
  · intro m r
    have h : keptRelations m (some r)
        = (getRelations m).filter
            (fun q => q.1 != r.singularName && q.1 != r.pluralName) := rfl
    rw [h]
    exact all_of_filter _ (getRelations m)

set_option maxRecDepth 100000 in
/-- C2: transformIncomingData turns the wire payload with a string id, a
scalar name and a posts connection into the store payload with integer
ids, the nodes wrapper unwrapped into a plain list re-keyed under the
pluralized posts key, and scalar fields copied unchanged. -/
theorem c2_transformIncomingData_example :
    transformIncomingData
        (.obj [(("id"), .str ("1")), (("name"), .str ("X")),
          (("posts"), .obj [(("nodes"),
            .arr [.obj [(("id"), .str ("5")), (("title"), .str ("T"))]])])])
      = .obj [(("id"), .num 1), (("name"), .str ("X")),
          (("posts"), .arr [.obj [(("id"), .num 5), (("title"), .str ("T"))]])] := rfl

/-- C3: buildArguments on the single entry map from name to the string
Charlie Brown renders the signature form, the literal-value form and the
variable-reference form exactly as specified. -/
theorem c3_buildArguments_examples :
    buildArguments (some [(("name"), .str ("Charlie Brown"))]) true false
      = ("($name: String!)")
    ∧ buildArguments (some [(("name"), .str ("Charlie Brown"))]) false false
      = ("(name: \"Charlie Brown\")")
    ∧ buildArguments (some [(("name"), .str ("Charlie Brown"))]) false true
      = ("(name: $name)") :=
  ⟨rfl, rfl, rfl⟩

set_option maxRecDepth 100000 in
/-- C4 evaluation at the failing input: buildQuery with a filter carrying an
id does not produce the single-record document the claim describes; the
original evaluates args.get on a plain object and throws a TypeError, as
the embedding records, while the call with no arguments succeeds and is
wrapped in an outer query block. -/
theorem c4_buildQuery_filter_throws :
    buildQueryQB chainReg 10 ("users") (some [(("id"), .num 1)])
      = .error (.typeError ("args.get is not a function"))
    ∧ Except.map (fun s => strStartsWith s ("\x7b "))
        (buildQueryQB chainReg 10 ("users") none)
      = Except.ok true :=
  ⟨rfl, rfl⟩

set_option maxRecDepth 100000 in
/-- C5 evaluation at the failing input: a fetch filter such as active true
reaches buildQuery and throws the same TypeError before any document is
built, so neither the filter argument clause nor the variables of the
claim are produced; the no-filter fetch does build a connection query with
no argument clause. -/
theorem c5_fetch_filter_throws :
    buildQueryQB chainReg 10 ("users") (some [(("active"), .bool true)])
      = .error (.typeError ("args.get is not a function"))
    ∧ Except.map (fun s => strContains s ("("))
        (buildQueryQB chainReg 10 ("users") none)
      = Except.ok false
    ∧ Except.map (fun s => strContains s ("nodes"))
        (buildQueryQB chainReg 10 ("users") none)
      = Except.ok true :=
  ⟨rfl, rfl, rfl⟩

/-- C6: a field name is produced by getQueryFields exactly when the model
declares it as a scalar attribute and its name does not end in Id; in
particular every scalar field whose name ends in Id is excluded and no
relation field is ever selected as a scalar. -/
theorem c6_getQueryFields_characterization :
    ∀ (m : Model) (f : String),
      f ∈ getQueryFields m
        ↔ ((f, FieldDef.attr) ∈ m.fields ∧ strEndsWith f ("Id") = false) := by
  intro m f
  rw [getQueryFields_eq]
  simp only [List.mem_map, List.mem_filter]
  constructor
  · rintro ⟨a, ⟨hmem, hcond⟩, rfl⟩
    rcases a with ⟨k, fd⟩
    rw [Bool.and_eq_true, beq_iff_eq, Bool.not_eq_true'] at hcond
    exact ⟨hcond.1 ▸ hmem, hcond.2⟩
  · rintro ⟨hmem, hend⟩
    exact ⟨(f, FieldDef.attr), ⟨hmem, by simp [hend]⟩, rfl⟩

/-- C7: when the transport outcome of the mutate call is a failure, the
persist and push flow returns that failure unchanged and issues no store
dispatch at all, for every action, record and model. -/
theorem c7_mutate_transport_failure :
    ∀ (action : String) (d : JSValue) (m : Model) (e : String),
      mutate action (some d) m (.error e) = ([], .error e) := by
  intro action d m e
  rfl

/-- C8: transformOutgoingData keeps exactly the record fields that are
neither relations of the owning model nor named id, each with its value
unchanged and in order, provided the record keys are distinct as JS object
keys always are. -/
theorem c8_transformOutgoingData_filter :
    ∀ (m : Model) (data : List (String × JSValue)),
      (data.map Prod.fst).Nodup →
      transformOutgoingData m data
        = data.filter (fun p => !(relHas m p.1) && p.1 != ("id")) := by
  intro m data h
  unfold transformOutgoingData
  rw [transformOutgoing_aux m data [] (by intro p _ q hq; cases hq) h]
  rfl

/-- C8 witness: on a concrete record of the users model the transform drops
the id and the posts relation and keeps the name unchanged. -/
theorem c8_transformOutgoingData_filter_witness :
    (([(("id"), JSValue.num 1), (("name"), JSValue.str ("Snoopy")),
        (("posts"), JSValue.arr [])] : List (String × JSValue)).map Prod.fst).Nodup
    ∧ transformOutgoingData chainUser
        [(("id"), JSValue.num 1), (("name"), JSValue.str ("Snoopy")),
         (("posts"), JSValue.arr [])]
      = [(("name"), JSValue.str ("Snoopy"))] :=
  ⟨by decide,
   by rw [c8_transformOutgoingData_filter chainUser _ (by decide)]; rfl⟩

/-- C9: for every argument map and flag combination, buildArguments renders
the same clause after removing every entry keyed id and every entry whose
value is an array, so no such entry contributes to the output; a map
holding only such entries renders the empty clause. -/
theorem c9_buildArguments_skips_id_and_arrays :
    (∀ (args : ArgMap) (sig var : Bool),
      buildArguments (some args) sig var
        = buildArguments
            (some (args.filter (fun p => !(isArrVal p.2) && p.1 != ("id"))))
            sig var)
    ∧ (∀ (sig var : Bool) (v : JSValue) (l : List JSValue),
        buildArguments (some [(("id"), v), (("xs"), .arr l)]) sig var = ("")) := by
  constructor
  · intro args sig var
    have h1 : ∀ (l : ArgMap), buildArguments (some l) sig var
        = (if !(l.foldl (buildArgEntry sig var) ((""), true)).2
           then ("(") ++ (l.foldl (buildArgEntry sig var) ((""), true)).1 ++ (")")
           else (l.foldl (buildArgEntry sig var) ((""), true)).1) := fun l => rfl
    rw [h1, h1, buildArgs_fold_filter]
  · intro sig var v l
    cases v <;> rfl

/-- C10: updateData reads only the first key of the transformed response
and, when that value is an array, only its first element; the result of
any input is a single update dispatch keyed by the given id; and the
success path of mutate issues exactly that one dispatch keyed by the
pre-mutation id of the record. -/
theorem c10_updateData_first_field :
    (∀ (kv : String × JSValue) (rest : List (String × JSValue)) (id : JSValue),
      updateData (.obj (kv :: rest)) id = updateData (.obj [kv]) id)
    ∧ (∀ (k : String) (x : JSValue) (xs : List JSValue) (id : JSValue),
        updateData (.obj [(k, .arr (x :: xs))]) id
          = updateData (.obj [(k, .arr [x])]) id)
    ∧ (∀ (d : JSValue) (id : JSValue),
        ∃ payload, updateData d id = .update id payload)
    ∧ (∀ (action : String) (d : JSValue) (m : Model) (resp : JSValue),
        (mutate action (some d) m (.ok resp)).1
          = [updateData (transformIncomingData resp) (objGetV d ("id"))]) := by
  refine ⟨fun kv rest id => rfl, fun k x xs id => rfl, fun d id => ⟨_, rfl⟩,
    fun action d m resp => rfl⟩

end VuexOrmGraphql
